import Mathlib

/-!
# Verification of `bitcoind-monitor.py` (bitcoin-prometheus-exporter)

Shallow embedding of the single-source-file Prometheus exporter for bitcoind.
The embedding models:

* the exception taxonomy visible to the program (`Exc`);
* the retrying RPC caller (`riprova.retry` around `bitcoinrpc`), with the
  repository's `error_evaluator` translated from source and the riprova
  retry engine itself modelled from the spec (the library is an external
  dependency, not part of this repository's source tree);
* the Prometheus metric registry as an explicit state record (`Registry`);
* `get_block`, `smartfee_gauge`, `do_smartfee`, the banned-peer loop, the
  block-aggregation loop and `refresh_metrics` as state transformers;
* one iteration of the scheduler loop in `main` (`main_loop_body`).

Python floats are modelled as `ℚ`; machine integers as `ℤ`/`ℕ` (no overflow
is relevant to any claim); a raised Python exception is an `Except.error`.
-/

set_option autoImplicit false

namespace BitcoindMonitor

/-- Exception kinds that can flow through the program.  `inWarmupError` is
`bitcoin.rpc.InWarmupError`, `connectionRefusedError` is the builtin
`ConnectionRefusedError`, `jsonDecodeError` is `json.decoder.JSONDecodeError`
(malformed / non-JSON RPC response, e.g. bad credentials), `retryError` is
`riprova.exceptions.RetryError` (retry budget exhausted), `keyError` is a
builtin `KeyError` from a missing dictionary key, and `otherError` stands for
any other exception type, identified by its name. -/
inductive Exc where
  | inWarmupError
  | connectionRefusedError
  | jsonDecodeError
  | retryError
  | keyError
  | otherError (name : String)
deriving DecidableEq, Repr

/-- Source line 95: `exception_name = err_type.__module__ + "." + err_type.__name__`. -/
def exceptionName (e : Exc) : String :=
  match e with
  | .inWarmupError => "bitcoin.rpc.InWarmupError"
  | .connectionRefusedError => "builtins.ConnectionRefusedError"
  | .jsonDecodeError => "json.decoder.JSONDecodeError"
  | .retryError => "riprova.exceptions.RetryError"
  | .keyError => "builtins.KeyError"
  | .otherError n => n

/-- Source lines 87-90: `RETRY_EXCEPTIONS = (InWarmupError, ConnectionRefusedError)`,
as the membership test `isinstance(e, RETRY_EXCEPTIONS)` performs it. -/
def isRetryException (e : Exc) : Bool :=
  match e with
  | .inWarmupError => true
  | .connectionRefusedError => true
  | _ => false

/-- Source lines 99-100: `def error_evaluator(e): return isinstance(e, RETRY_EXCEPTIONS)`. -/
def error_evaluator (e : Exc) : Bool :=
  isRetryException e

/-- Source line 84: `TIMEOUT = int(os.environ.get('TIMEOUT', 30))`, at its default. -/
def TIMEOUT : ℚ := 30

/-- Modelled from the spec: the riprova `ExponentialBackOff` used at source
line 105 is an external library component; the spec requires a deterministic,
exponentially increasing inter-attempt delay ("implementation may choose base
and multiplier; must increase monotonically between attempts within one
call"; "it is deterministic given attempt number").  We model it as a base
interval of 1/10 second doubled after every attempt. -/
def backoffDelay (n : ℕ) : ℚ :=
  (1 / 10) * 2 ^ n

/-- Outcome of a single underlying attempt of the wrapped call: the call
either returns a value or raises an exception. -/
inductive Attempt (α : Type) where
  | ok (v : α)
  | raise (e : Exc)

/-- Final outcome of a retrying call, together with the number of attempts
that were made. -/
inductive RetryOutcome (α : Type) where
  | success (v : α) (attempts : ℕ)
  | raised (e : Exc) (attempts : ℕ)
  | budgetExceeded (last : Exc) (attempts : ℕ)
deriving Repr

/-- Number of attempts recorded in a `RetryOutcome`. -/
def RetryOutcome.attempts {α : Type} : RetryOutcome α → ℕ
  | .success _ n => n
  | .raised _ n => n
  | .budgetExceeded _ n => n

/-- Modelled from the spec: the retry engine of `riprova.retry` (source lines
103-108), which is not part of this repository.  `f n` is the outcome of the
`n`-th underlying attempt.  A successful attempt returns; a failure rejected
by `error_evaluator` propagates immediately; a retryable failure sleeps the
backoff delay and retries unless doing so would exceed the elapsed-time
budget, in which case the retry budget is declared exceeded.  `fuel` bounds
the recursion; `retry_budget_total` below shows fuel 9 always suffices for
the repository's timeout of 30 seconds. -/
def retryAux {α : Type} (f : ℕ → Attempt α) (timeout : ℚ) :
    ℕ → ℚ → ℕ → Option (RetryOutcome α)
  | _, _, 0 => none
  | n, elapsed, fuel + 1 =>
    match f n with
    | .ok v => some (.success v (n + 1))
    | .raise e =>
      if error_evaluator e = false then
        some (.raised e (n + 1))
      else if timeout < elapsed + backoffDelay n then
        some (.budgetExceeded e (n + 1))
      else
        retryAux f timeout (n + 1) (elapsed + backoffDelay n) fuel

/-- The retrying caller, at the repository's timeout. -/
def retryCall {α : Type} (f : ℕ → Attempt α) (fuel : ℕ) : Option (RetryOutcome α) :=
  retryAux f TIMEOUT 0 0 fuel

theorem backoffDelay_strictMono (n : ℕ) : backoffDelay n < backoffDelay (n + 1) := by
  have h2 : (0 : ℚ) < 2 ^ n := by positivity
  simp only [backoffDelay, pow_succ]
  nlinarith

theorem retryAux_attempts_ge {α : Type} (f : ℕ → Attempt α) (t : ℚ) :
    ∀ (fuel n : ℕ) (elapsed : ℚ) (r : RetryOutcome α),
      retryAux f t n elapsed fuel = some r → n + 1 ≤ r.attempts := by
  intro fuel
  induction fuel with
  | zero => intro n elapsed r h; simp [retryAux] at h
  | succ fuel ih =>
    intro n elapsed r h
    simp only [retryAux] at h
    cases hf : f n with
    | ok v =>
      rw [hf] at h
      cases h
      simp [RetryOutcome.attempts]
    | raise e =>
      rw [hf] at h
      by_cases he : error_evaluator e = false
      · simp only [he, if_true, reduceIte] at h
        cases h
        simp [RetryOutcome.attempts]
      · simp only [he, if_false, reduceIte] at h
        by_cases ht : t < elapsed + backoffDelay n
        · simp only [ht, if_true, reduceIte] at h
          cases h
          simp [RetryOutcome.attempts]
        · simp only [ht, if_false, reduceIte] at h
          have := ih (n + 1) (elapsed + backoffDelay n) r h
          omega

/-- With the repository's 30-second budget and the modelled backoff, the
retry loop always reaches a verdict within 9 attempts: the accumulated
delays exceed the budget well before the fuel runs out. -/
theorem retry_budget_total {α : Type} (f : ℕ → Attempt α) :
    ∀ (fuel n : ℕ) (elapsed : ℚ),
      (1 / 10) * (2 ^ n - 1) ≤ elapsed → 1 ≤ fuel → 9 ≤ fuel + n →
      (retryAux f TIMEOUT n elapsed fuel).isSome := by
  intro fuel
  induction fuel with
  | zero => intro n elapsed _ h1 _; omega
  | succ fuel ih =>
    intro n elapsed hinv _ htot
    simp only [retryAux]
    cases f n with
    | ok v => simp
    | raise e =>
      by_cases he : error_evaluator e = false
      · simp [he]
      · simp only [he, if_false, reduceIte]
        by_cases ht : TIMEOUT < elapsed + backoffDelay n
        · simp [ht]
        · simp only [ht, if_false, reduceIte]
          -- recursion only happens with a small attempt index: otherwise the
          -- accumulated delay already exceeds the 30-second budget
          have hn8 : n < 8 := by
            by_contra hn
            push_neg at hn
            have hpow : (2 : ℚ) ^ 8 ≤ 2 ^ n := by
              apply pow_le_pow_right₀ (by norm_num) hn
            have : (1 / 10 : ℚ) * (2 ^ 8 - 1) ≤ elapsed := by
              calc (1 / 10 : ℚ) * (2 ^ 8 - 1) ≤ (1 / 10) * (2 ^ n - 1) := by nlinarith
                _ ≤ elapsed := hinv
            have hd : (1 / 10 : ℚ) * 2 ^ 8 ≤ backoffDelay n := by
              simp only [backoffDelay]
              nlinarith
            simp only [TIMEOUT] at ht
            push_neg at ht
            nlinarith
          cases fuel with
          | zero => omega
          | succ fuel' =>
            apply ih (n + 1) (elapsed + backoffDelay n)
            · simp only [backoffDelay, pow_succ]
              nlinarith
            · omega
            · omega

/-! ## RPC response data model

Nested response documents, restricted to the fields `refresh_metrics`
actually reads. -/

/-- The `'locked'` sub-document of `getmemoryinfo 'stats'` (source line 159). -/
structure MemInfo where
  used : ℚ
  free : ℚ
  total : ℚ
  locked : ℚ
  chunks_used : ℚ
  chunks_free : ℚ
deriving DecidableEq, Repr

/-- Fields of `getblockchaininfo` read by `refresh_metrics`. -/
structure BlockchainInfo where
  blocks : ℤ
  difficulty : ℚ
  size_on_disk : ℤ
  bestblockhash : String
deriving DecidableEq, Repr

/-- Fields of `getnetworkinfo` read by `refresh_metrics`.  The `warnings`
field is the only one whose absence a claim is about, so it alone is
modelled as an optional dictionary key; accessing it when absent raises
`KeyError`, as `networkinfo['warnings']` would.  A present value is a list
of warning strings, truthy exactly when non-empty. -/
structure NetworkInfo where
  connections : ℤ
  version : ℤ
  protocolversion : ℤ
  warnings : Option (List String)
deriving DecidableEq, Repr

/-- Fields of `getmempoolinfo` read by `refresh_metrics`. -/
structure MempoolInfo where
  bytes : ℚ
  size : ℚ
  usage : ℚ
deriving DecidableEq, Repr

/-- Fields of `getnettotals` read by `refresh_metrics`. -/
structure NetTotals where
  totalbytesrecv : ℚ
  totalbytessent : ℚ
deriving DecidableEq, Repr

/-- One output of a transaction; only its `value` field is read. -/
structure TxOut where
  value : ℚ
deriving DecidableEq, Repr

/-- One transaction of a block: `vin` is read only through `len`, `vout`
through `len` and each output's `value`. -/
structure Tx where
  vin : List Unit
  vout : List TxOut
deriving DecidableEq, Repr

/-- Fields of `getblock <hash> 2` read by `refresh_metrics`. -/
structure Block where
  size : ℚ
  nTx : ℚ
  height : ℚ
  weight : ℚ
  tx : List Tx
deriving DecidableEq, Repr

/-- One entry of `listbanned`. -/
structure Ban where
  address : String
  ban_reason : String
  ban_created : ℚ
  banned_until : ℚ
deriving DecidableEq, Repr

/-- Result of `estimatesmartfee`: `.get('feerate')` may be absent
(source line 151). -/
structure SmartFeeResult where
  feerate : Option ℚ
deriving DecidableEq, Repr

/-- Post-retry outcome of every `bitcoinrpc` call a cycle makes: each field
is the value returned, or the exception that `bitcoinrpc` let escape
(a non-retryable failure raised as itself, or `retryError` on budget
exhaustion). -/
structure NodeResponses where
  uptime : Except Exc ℤ
  getmemoryinfo : Except Exc MemInfo
  getblockchaininfo : Except Exc BlockchainInfo
  getnetworkinfo : Except Exc NetworkInfo
  getchaintips : Except Exc (List Unit)
  getmempoolinfo : Except Exc MempoolInfo
  getnettotals : Except Exc NetTotals
  getblock : String → Except Exc Block
  getnetworkhashps : ℤ → Except Exc ℚ
  listbanned : Except Exc (List Ban)
  estimatesmartfee : ℕ → Except Exc SmartFeeResult

/-! ## Association lists

Label families and the smart-fee gauge dictionary are finite maps; we model
them as association lists with first-match lookup and replace-or-append
update. -/

/-- First-match lookup. -/
def assocGet {κ β : Type} [DecidableEq κ] : List (κ × β) → κ → Option β
  | [], _ => none
  | (k', v) :: rest, k => if k = k' then some v else assocGet rest k

/-- Replace the first binding of `k`, or append one. -/
def assocSet {κ β : Type} [DecidableEq κ] : List (κ × β) → κ → β → List (κ × β)
  | [], k, v => [(k, v)]
  | (k', v') :: rest, k, v =>
    if k = k' then (k', v) :: rest else (k', v') :: assocSet rest k v

theorem assocGet_assocSet_same {κ β : Type} [DecidableEq κ]
    (l : List (κ × β)) (k : κ) (v : β) : assocGet (assocSet l k v) k = some v := by
  induction l with
  | nil => simp [assocGet, assocSet]
  | cons p rest ih =>
    obtain ⟨k', v'⟩ := p
    by_cases hk : k = k' <;> simp [assocGet, assocSet, hk, ih]

theorem assocGet_assocSet_ne {κ β : Type} [DecidableEq κ]
    (l : List (κ × β)) (k k' : κ) (v : β) (h : k' ≠ k) :
    assocGet (assocSet l k v) k' = assocGet l k' := by
  induction l with
  | nil => simp [assocGet, assocSet, h]
  | cons p rest ih =>
    obtain ⟨k₀, v₀⟩ := p
    by_cases hk : k = k₀
    · subst hk
      simp [assocGet, assocSet, h]
    · by_cases hk' : k' = k₀ <;> simp [assocGet, assocSet, hk, hk', ih]

theorem assocGet_mem {κ β : Type} [DecidableEq κ]
    (l : List (κ × β)) (k : κ) (v : β) (h : assocGet l k = some v) : (k, v) ∈ l := by
  induction l with
  | nil => simp [assocGet] at h
  | cons p rest ih =>
    obtain ⟨k₀, v₀⟩ := p
    by_cases hk : k = k₀
    · subst hk
      simp [assocGet] at h
      simp [h]
    · simp [assocGet, hk] at h
      exact List.mem_cons_of_mem _ (ih h)

/-! ## The metric registry

One record holds every instrument the program defines (source lines 26-72).
A plain gauge is `Option ℚ` (`none` = never set); a counter is its running
total; a labeled family is an association list keyed by the label tuple.
The per-confirmation-target smart-fee gauges (source line 33, a dict from
block count to lazily created `Gauge`) are modelled by `smartfee_dict`
(block count ↦ gauge identity), `smartfee_next` (identity of the next gauge
that would be created) and `smartfee_values` (gauge identity ↦ value). -/

@[ext]
structure Registry where
  bitcoin_blocks : Option ℚ
  bitcoin_difficulty : Option ℚ
  bitcoin_peers : Option ℚ
  bitcoin_hashps_neg1 : Option ℚ
  bitcoin_hashps_1 : Option ℚ
  bitcoin_hashps : Option ℚ
  bitcoin_warnings : ℕ
  bitcoin_uptime : Option ℚ
  bitcoin_meminfo_used : Option ℚ
  bitcoin_meminfo_free : Option ℚ
  bitcoin_meminfo_total : Option ℚ
  bitcoin_meminfo_locked : Option ℚ
  bitcoin_meminfo_chunks_used : Option ℚ
  bitcoin_meminfo_chunks_free : Option ℚ
  bitcoin_mempool_bytes : Option ℚ
  bitcoin_mempool_size : Option ℚ
  bitcoin_mempool_usage : Option ℚ
  bitcoin_latest_block_height : Option ℚ
  bitcoin_latest_block_weight : Option ℚ
  bitcoin_latest_block_size : Option ℚ
  bitcoin_latest_block_txs : Option ℚ
  bitcoin_num_chaintips : Option ℚ
  bitcoin_total_bytes_recv : Option ℚ
  bitcoin_total_bytes_sent : Option ℚ
  bitcoin_latest_block_inputs : Option ℚ
  bitcoin_latest_block_outputs : Option ℚ
  bitcoin_latest_block_value : Option ℚ
  bitcoin_ban_created : List ((String × String) × ℚ)
  bitcoin_banned_until : List ((String × String) × ℚ)
  bitcoin_server_version : Option ℚ
  bitcoin_protocol_version : Option ℚ
  bitcoin_size_on_disk : Option ℚ
  exporter_errors : List (String × ℕ)
  process_time : ℚ
  smartfee_dict : List (ℕ × ℕ)
  smartfee_next : ℕ
  smartfee_values : List (ℕ × ℚ)
deriving DecidableEq, Repr

/-- The registry at process start: no gauge set, counters zero, no
smart-fee gauge created yet. -/
def Registry.initial : Registry where
  bitcoin_blocks := none
  bitcoin_difficulty := none
  bitcoin_peers := none
  bitcoin_hashps_neg1 := none
  bitcoin_hashps_1 := none
  bitcoin_hashps := none
  bitcoin_warnings := 0
  bitcoin_uptime := none
  bitcoin_meminfo_used := none
  bitcoin_meminfo_free := none
  bitcoin_meminfo_total := none
  bitcoin_meminfo_locked := none
  bitcoin_meminfo_chunks_used := none
  bitcoin_meminfo_chunks_free := none
  bitcoin_mempool_bytes := none
  bitcoin_mempool_size := none
  bitcoin_mempool_usage := none
  bitcoin_latest_block_height := none
  bitcoin_latest_block_weight := none
  bitcoin_latest_block_size := none
  bitcoin_latest_block_txs := none
  bitcoin_num_chaintips := none
  bitcoin_total_bytes_recv := none
  bitcoin_total_bytes_sent := none
  bitcoin_latest_block_inputs := none
  bitcoin_latest_block_outputs := none
  bitcoin_latest_block_value := none
  bitcoin_ban_created := []
  bitcoin_banned_until := []
  bitcoin_server_version := none
  bitcoin_protocol_version := none
  bitcoin_size_on_disk := none
  exporter_errors := []
  process_time := 0
  smartfee_dict := []
  smartfee_next := 0
  smartfee_values := []

/-- Source lines 233-236 (`exception_count`) and lines 93-96 (`on_retry`):
increment the error counter labeled with the exception's type name. -/
def exception_count (e : Exc) (st : Registry) : Registry :=
  let label := exceptionName e
  let current := (assocGet st.exporter_errors label).getD 0
  { st with exporter_errors := assocSet st.exporter_errors label (current + 1) }

/-! ## Collection functions -/

/-- Source line 80 at its default: `SMART_FEES = [2, 3, 5, 20]`. -/
def SMART_FEES : List ℕ := [2, 3, 5, 20]

/-- Source lines 129-136: `get_block` swallows every exception (`except
Exception`), printing it and returning `None`; its argument is the outcome
of the `bitcoinrpc('getblock', block_hash, 2)` call. -/
def get_block (r : Except Exc Block) : Option Block :=
  match r with
  | .ok block => some block
  | .error _ => none

/-- Source lines 139-147: look up the smart-fee gauge for `num_blocks` in
the module dict, creating and caching a fresh gauge if absent; returns the
gauge's identity and the updated registry. -/
def smartfee_gauge (st : Registry) (num_blocks : ℕ) : ℕ × Registry :=
  match assocGet st.smartfee_dict num_blocks with
  | some gauge => (gauge, st)
  | none =>
    (st.smartfee_next,
     { st with
         smartfee_dict := assocSet st.smartfee_dict num_blocks st.smartfee_next,
         smartfee_next := st.smartfee_next + 1 })

/-- Source lines 150-154: fetch `estimatesmartfee num_blocks` (the only RPC
`do_smartfee` performs, passed in as `esf`); when a `feerate` field is
present, get-or-create the gauge and set it. -/
def do_smartfee (esf : ℕ → Except Exc SmartFeeResult) (num_blocks : ℕ) (st : Registry) :
    Registry × Except Exc Unit :=
  match esf num_blocks with
  | .error e => (st, .error e)
  | .ok result =>
    match result.feerate with
    | none => (st, .ok ())
    | some smartfee =>
      let (gauge, st') := smartfee_gauge st num_blocks
      ({ st' with smartfee_values := assocSet st'.smartfee_values gauge smartfee }, .ok ())

/-- Source lines 183-184: `for smartfee in SMART_FEES: do_smartfee(smartfee)`;
an exception from any iteration aborts the loop, keeping prior writes. -/
def do_smartfees (esf : ℕ → Except Exc SmartFeeResult) :
    List ℕ → Registry → Registry × Except Exc Unit
  | [], st => (st, .ok ())
  | n :: rest, st =>
    match do_smartfee esf n st with
    | (st', .ok _) => do_smartfees esf rest st'
    | (st', .error e) => (st', .error e)

/-- Source lines 186-188: each `listbanned` entry writes the two labeled
families at the label tuple (address, ban_reason). -/
def processBans : List Ban → Registry → Registry
  | [], st => st
  | ban :: rest, st =>
    processBans rest
      { st with
          bitcoin_ban_created :=
            assocSet st.bitcoin_ban_created (ban.address, ban.ban_reason) ban.ban_created,
          bitcoin_banned_until :=
            assocSet st.bitcoin_banned_until (ban.address, ban.ban_reason) ban.banned_until }

/-- Source lines 214-221: the accumulation loop over the block's
transactions, with `inputs`, `outputs`, `value` as running totals. -/
def blockAggLoop : List Tx → ℕ → ℕ → ℚ → ℕ × ℕ × ℚ
  | [], inputs, outputs, value => (inputs, outputs, value)
  | tx :: rest, inputs, outputs, value =>
    let i := tx.vin.length
    let o := tx.vout.length
    blockAggLoop rest (inputs + i) (outputs + o) (value + (tx.vout.map TxOut.value).sum)

/-- Source lines 209-225: when the latest block was retrieved, set the four
block gauges and the three block aggregates; otherwise write nothing. -/
def set_block_metrics (latest_block : Option Block) (st : Registry) : Registry :=
  match latest_block with
  | none => st
  | some block =>
    let st := { st with
        bitcoin_latest_block_size := some block.size,
        bitcoin_latest_block_txs := some block.nTx,
        bitcoin_latest_block_height := some block.height,
        bitcoin_latest_block_weight := some block.weight }
    let agg := blockAggLoop block.tx 0 0 0
    { st with
        bitcoin_latest_block_inputs := some (agg.1 : ℚ),
        bitcoin_latest_block_outputs := some (agg.2.1 : ℚ),
        bitcoin_latest_block_value := some agg.2.2 }

/-- The values fetched by the RPC phase of one cycle (source lines
158-170), before any instrument is written. -/
structure FetchedCycle where
  uptime : ℤ
  meminfo : MemInfo
  blockchaininfo : BlockchainInfo
  networkinfo : NetworkInfo
  chaintips : ℕ
  mempool : MempoolInfo
  nettotals : NetTotals
  latest_block : Option Block
  hashps_120 : ℚ
  hashps_neg1 : ℚ
  hashps_1 : ℚ
  banned : List Ban

/-- Source lines 172-181: the first block of scalar gauge writes. -/
def write_scalars1 (c : FetchedCycle) (st : Registry) : Registry :=
  { st with
      bitcoin_uptime := some (c.uptime : ℚ),
      bitcoin_blocks := some (c.blockchaininfo.blocks : ℚ),
      bitcoin_peers := some (c.networkinfo.connections : ℚ),
      bitcoin_difficulty := some c.blockchaininfo.difficulty,
      bitcoin_hashps := some c.hashps_120,
      bitcoin_hashps_neg1 := some c.hashps_neg1,
      bitcoin_hashps_1 := some c.hashps_1,
      bitcoin_server_version := some (c.networkinfo.version : ℚ),
      bitcoin_protocol_version := some (c.networkinfo.protocolversion : ℚ),
      bitcoin_size_on_disk := some (c.blockchaininfo.size_on_disk : ℚ) }

/-- Source lines 190-191: `if networkinfo['warnings']: BITCOIN_WARNINGS.inc()`,
applied to an already-retrieved (present) warnings value; a non-empty list
is truthy. -/
def write_warnings (warnings : List String) (st : Registry) : Registry :=
  if warnings = [] then st
  else { st with bitcoin_warnings := st.bitcoin_warnings + 1 }

/-- Source lines 193-207: the second block of scalar gauge writes. -/
def write_scalars2 (c : FetchedCycle) (st : Registry) : Registry :=
  { st with
      bitcoin_num_chaintips := some (c.chaintips : ℚ),
      bitcoin_meminfo_used := some c.meminfo.used,
      bitcoin_meminfo_free := some c.meminfo.free,
      bitcoin_meminfo_total := some c.meminfo.total,
      bitcoin_meminfo_locked := some c.meminfo.locked,
      bitcoin_meminfo_chunks_used := some c.meminfo.chunks_used,
      bitcoin_meminfo_chunks_free := some c.meminfo.chunks_free,
      bitcoin_mempool_bytes := some c.mempool.bytes,
      bitcoin_mempool_size := some c.mempool.size,
      bitcoin_mempool_usage := some c.mempool.usage,
      bitcoin_total_bytes_recv := some c.nettotals.totalbytesrecv,
      bitcoin_total_bytes_sent := some c.nettotals.totalbytessent }

/-- Source lines 172-207: the write phase of `refresh_metrics` up to (not
including) the block-derived gauges, in source order: the ten scalar
gauges, the smart-fee loop (which performs further RPC calls through `esf`
and can raise), the ban loop, the warnings counter (a `KeyError` if the
field is absent), and the remaining scalar gauges. -/
def refresh_writes_pre (esf : ℕ → Except Exc SmartFeeResult) (c : FetchedCycle)
    (st : Registry) : Registry × Except Exc Unit :=
  match do_smartfees esf SMART_FEES (write_scalars1 c st) with
  | (st', .error e) => (st', .error e)
  | (st', .ok _) =>
    let st2 := processBans c.banned st'
    match c.networkinfo.warnings with
    | none => (st2, .error .keyError)
    | some warnings => (write_scalars2 c (write_warnings warnings st2), .ok ())

/-- Source lines 172-225: the full write phase, i.e. `refresh_writes_pre`
followed (on success) by the block-derived gauges of lines 209-225. -/
def refresh_writes (esf : ℕ → Except Exc SmartFeeResult) (c : FetchedCycle)
    (st : Registry) : Registry × Except Exc Unit :=
  match refresh_writes_pre esf c st with
  | (st', .error e) => (st', .error e)
  | (st', .ok _) => (set_block_metrics c.latest_block st', .ok ())

/-- Source lines 157-225: one full `refresh_metrics` call.  The fetch phase
performs the RPC calls in source order, raising without touching any
instrument; `get_block` (line 165) swallows its own failures; then the
write phase runs. -/
def refresh_metrics (node : NodeResponses) (st : Registry) :
    Registry × Except Exc Unit :=
  match node.uptime with
  | .error e => (st, .error e)
  | .ok uptime =>
  match node.getmemoryinfo with
  | .error e => (st, .error e)
  | .ok meminfo =>
  match node.getblockchaininfo with
  | .error e => (st, .error e)
  | .ok blockchaininfo =>
  match node.getnetworkinfo with
  | .error e => (st, .error e)
  | .ok networkinfo =>
  match node.getchaintips with
  | .error e => (st, .error e)
  | .ok chaintips =>
  match node.getmempoolinfo with
  | .error e => (st, .error e)
  | .ok mempool =>
  match node.getnettotals with
  | .error e => (st, .error e)
  | .ok nettotals =>
  let latest_block := get_block (node.getblock blockchaininfo.bestblockhash)
  match node.getnetworkhashps 120 with
  | .error e => (st, .error e)
  | .ok hashps_120 =>
  match node.getnetworkhashps (-1) with
  | .error e => (st, .error e)
  | .ok hashps_neg1 =>
  match node.getnetworkhashps 1 with
  | .error e => (st, .error e)
  | .ok hashps_1 =>
  match node.listbanned with
  | .error e => (st, .error e)
  | .ok banned =>
    refresh_writes node.estimatesmartfee
      { uptime := uptime, meminfo := meminfo, blockchaininfo := blockchaininfo,
        networkinfo := networkinfo, chaintips := chaintips.length, mempool := mempool,
        nettotals := nettotals, latest_block := latest_block,
        hashps_120 := hashps_120, hashps_neg1 := hashps_neg1, hashps_1 := hashps_1,
        banned := banned } st

/-! ## The scheduler loop -/

/-- What one iteration of the `while True` loop in `main` decides to do
next: continue with the next cycle, exit the process with a status code, or
crash on an unhandled exception. -/
inductive LoopCtl where
  | nextCycle
  | exitCode (code : ℕ)
  | crash (e : Exc)
deriving DecidableEq, Repr

/-- Source lines 244-260: one iteration of the scheduler loop.  A
`riprova.exceptions.RetryError` is caught, printed and counted, after which
the iteration still reaches `PROCESS_TIME.inc(duration)`; a
`json.decoder.JSONDecodeError` triggers `sys.exit(1)` before that
increment; any other exception propagates and crashes the process, also
before the increment.  `duration` is the measured wall-clock duration of
the cycle. -/
def main_loop_body (node : NodeResponses) (st : Registry) (duration : ℚ) :
    Registry × LoopCtl :=
  match refresh_metrics node st with
  | (st', .ok _) =>
    ({ st' with process_time := st'.process_time + duration }, .nextCycle)
  | (st', .error e) =>
    match e with
    | .retryError =>
      let st'' := exception_count .retryError st'
      ({ st'' with process_time := st''.process_time + duration }, .nextCycle)
    | .jsonDecodeError => (st', .exitCode 1)
    | e => (st', .crash e)


/-! ## Frame lemmas: which instruments each phase touches -/

/-- The seven block-derived gauges, as one tuple. -/
def Registry.blockProj (st : Registry) :
    Option ℚ × Option ℚ × Option ℚ × Option ℚ × Option ℚ × Option ℚ × Option ℚ :=
  (st.bitcoin_latest_block_size, st.bitcoin_latest_block_txs,
   st.bitcoin_latest_block_height, st.bitcoin_latest_block_weight,
   st.bitcoin_latest_block_inputs, st.bitcoin_latest_block_outputs,
   st.bitcoin_latest_block_value)

/-- The two exporter-bookkeeping instruments, as one tuple. -/
def Registry.errProj (st : Registry) : ℚ × List (String × ℕ) :=
  (st.process_time, st.exporter_errors)

theorem do_smartfee_shape (esf : ℕ → Except Exc SmartFeeResult) (n : ℕ) (st : Registry) :
    ∃ d nx v, (do_smartfee esf n st).1 =
      { st with smartfee_dict := d, smartfee_next := nx, smartfee_values := v } := by
  rcases hE : esf n with e | result
  · exact ⟨st.smartfee_dict, st.smartfee_next, st.smartfee_values, by simp [do_smartfee, hE]⟩
  · rcases hF : result.feerate with _ | fee
    · exact ⟨st.smartfee_dict, st.smartfee_next, st.smartfee_values,
        by simp [do_smartfee, hE, hF]⟩
    · rcases hG : assocGet st.smartfee_dict n with _ | g
      · exact ⟨assocSet st.smartfee_dict n st.smartfee_next, st.smartfee_next + 1,
          assocSet st.smartfee_values st.smartfee_next fee,
          by simp [do_smartfee, hE, hF, smartfee_gauge, hG]⟩
      · exact ⟨st.smartfee_dict, st.smartfee_next, assocSet st.smartfee_values g fee,
          by simp [do_smartfee, hE, hF, smartfee_gauge, hG]⟩

theorem do_smartfee_frame (esf : ℕ → Except Exc SmartFeeResult) (n : ℕ) (st : Registry) :
    ((do_smartfee esf n st).1).bitcoin_latest_block_size = st.bitcoin_latest_block_size ∧
    ((do_smartfee esf n st).1).bitcoin_latest_block_txs = st.bitcoin_latest_block_txs ∧
    ((do_smartfee esf n st).1).bitcoin_latest_block_height = st.bitcoin_latest_block_height ∧
    ((do_smartfee esf n st).1).bitcoin_latest_block_weight = st.bitcoin_latest_block_weight ∧
    ((do_smartfee esf n st).1).bitcoin_latest_block_inputs = st.bitcoin_latest_block_inputs ∧
    ((do_smartfee esf n st).1).bitcoin_latest_block_outputs = st.bitcoin_latest_block_outputs ∧
    ((do_smartfee esf n st).1).bitcoin_latest_block_value = st.bitcoin_latest_block_value ∧
    ((do_smartfee esf n st).1).process_time = st.process_time ∧
    ((do_smartfee esf n st).1).exporter_errors = st.exporter_errors ∧
    ((do_smartfee esf n st).1).bitcoin_warnings = st.bitcoin_warnings ∧
    ((do_smartfee esf n st).1).bitcoin_ban_created = st.bitcoin_ban_created ∧
    ((do_smartfee esf n st).1).bitcoin_banned_until = st.bitcoin_banned_until := by
  obtain ⟨d, nx, v, h⟩ := do_smartfee_shape esf n st
  rw [h]
  simp

theorem do_smartfees_frame (esf : ℕ → Except Exc SmartFeeResult) (l : List ℕ) :
    ∀ st : Registry,
    ((do_smartfees esf l st).1).bitcoin_latest_block_size = st.bitcoin_latest_block_size ∧
    ((do_smartfees esf l st).1).bitcoin_latest_block_txs = st.bitcoin_latest_block_txs ∧
    ((do_smartfees esf l st).1).bitcoin_latest_block_height = st.bitcoin_latest_block_height ∧
    ((do_smartfees esf l st).1).bitcoin_latest_block_weight = st.bitcoin_latest_block_weight ∧
    ((do_smartfees esf l st).1).bitcoin_latest_block_inputs = st.bitcoin_latest_block_inputs ∧
    ((do_smartfees esf l st).1).bitcoin_latest_block_outputs = st.bitcoin_latest_block_outputs ∧
    ((do_smartfees esf l st).1).bitcoin_latest_block_value = st.bitcoin_latest_block_value ∧
    ((do_smartfees esf l st).1).process_time = st.process_time ∧
    ((do_smartfees esf l st).1).exporter_errors = st.exporter_errors ∧
    ((do_smartfees esf l st).1).bitcoin_warnings = st.bitcoin_warnings ∧
    ((do_smartfees esf l st).1).bitcoin_ban_created = st.bitcoin_ban_created ∧
    ((do_smartfees esf l st).1).bitcoin_banned_until = st.bitcoin_banned_until := by
  induction l with
  | nil => intro st; simp [do_smartfees]
  | cons n rest ih =>
    intro st
    rcases hm : do_smartfee esf n st with ⟨st', r⟩
    have h1 : (do_smartfee esf n st).1 = st' := by rw [hm]
    have hf := do_smartfee_frame esf n st
    rw [h1] at hf
    cases r with
    | error e => simp only [do_smartfees, hm]; exact hf
    | ok u =>
      simp only [do_smartfees, hm]
      simp [ih st', hf]

theorem processBans_frame (l : List Ban) :
    ∀ st : Registry,
    (processBans l st).bitcoin_latest_block_size = st.bitcoin_latest_block_size ∧
    (processBans l st).bitcoin_latest_block_txs = st.bitcoin_latest_block_txs ∧
    (processBans l st).bitcoin_latest_block_height = st.bitcoin_latest_block_height ∧
    (processBans l st).bitcoin_latest_block_weight = st.bitcoin_latest_block_weight ∧
    (processBans l st).bitcoin_latest_block_inputs = st.bitcoin_latest_block_inputs ∧
    (processBans l st).bitcoin_latest_block_outputs = st.bitcoin_latest_block_outputs ∧
    (processBans l st).bitcoin_latest_block_value = st.bitcoin_latest_block_value ∧
    (processBans l st).process_time = st.process_time ∧
    (processBans l st).exporter_errors = st.exporter_errors ∧
    (processBans l st).bitcoin_warnings = st.bitcoin_warnings := by
  induction l with
  | nil => intro st; simp [processBans]
  | cons ban rest ih =>
    intro st
    simp only [processBans]
    simp [ih]

theorem set_block_metrics_shape (lb : Option Block) (st : Registry) :
    ∃ s t h w i o v, set_block_metrics lb st =
      { st with
          bitcoin_latest_block_size := s, bitcoin_latest_block_txs := t,
          bitcoin_latest_block_height := h, bitcoin_latest_block_weight := w,
          bitcoin_latest_block_inputs := i, bitcoin_latest_block_outputs := o,
          bitcoin_latest_block_value := v } := by
  cases lb with
  | none =>
    exact ⟨st.bitcoin_latest_block_size, st.bitcoin_latest_block_txs,
      st.bitcoin_latest_block_height, st.bitcoin_latest_block_weight,
      st.bitcoin_latest_block_inputs, st.bitcoin_latest_block_outputs,
      st.bitcoin_latest_block_value, by simp [set_block_metrics]⟩
  | some b =>
    exact ⟨some b.size, some b.nTx, some b.height, some b.weight,
      some ((blockAggLoop b.tx 0 0 0).1 : ℚ), some ((blockAggLoop b.tx 0 0 0).2.1 : ℚ),
      some (blockAggLoop b.tx 0 0 0).2.2, by simp [set_block_metrics]⟩

theorem set_block_metrics_counters (lb : Option Block) (st : Registry) :
    (set_block_metrics lb st).process_time = st.process_time ∧
    (set_block_metrics lb st).exporter_errors = st.exporter_errors ∧
    (set_block_metrics lb st).bitcoin_warnings = st.bitcoin_warnings := by
  obtain ⟨s, t, h, w, i, o, v, hb⟩ := set_block_metrics_shape lb st
  rw [hb]
  simp

theorem write_warnings_frame (warnings : List String) (st : Registry) :
    (write_warnings warnings st).bitcoin_latest_block_size = st.bitcoin_latest_block_size ∧
    (write_warnings warnings st).bitcoin_latest_block_txs = st.bitcoin_latest_block_txs ∧
    (write_warnings warnings st).bitcoin_latest_block_height = st.bitcoin_latest_block_height ∧
    (write_warnings warnings st).bitcoin_latest_block_weight = st.bitcoin_latest_block_weight ∧
    (write_warnings warnings st).bitcoin_latest_block_inputs = st.bitcoin_latest_block_inputs ∧
    (write_warnings warnings st).bitcoin_latest_block_outputs = st.bitcoin_latest_block_outputs ∧
    (write_warnings warnings st).bitcoin_latest_block_value = st.bitcoin_latest_block_value ∧
    (write_warnings warnings st).process_time = st.process_time ∧
    (write_warnings warnings st).exporter_errors = st.exporter_errors ∧
    (write_warnings warnings st).bitcoin_ban_created = st.bitcoin_ban_created ∧
    (write_warnings warnings st).bitcoin_banned_until = st.bitcoin_banned_until ∧
    (write_warnings warnings st).smartfee_dict = st.smartfee_dict ∧
    (write_warnings warnings st).smartfee_values = st.smartfee_values := by
  unfold write_warnings
  split <;> simp

/-- The warnings counter moves by exactly the truthiness of the warnings
value, never by the number of warning strings. -/
theorem write_warnings_val (warnings : List String) (st : Registry) :
    (write_warnings warnings st).bitcoin_warnings =
      st.bitcoin_warnings + (if warnings = [] then 0 else 1) := by
  unfold write_warnings
  split <;> simp

/-- The pre-block write phase never touches the seven block-derived gauges,
the process-time counter or the error counter. -/
theorem refresh_writes_pre_frame (esf : ℕ → Except Exc SmartFeeResult)
    (c : FetchedCycle) (st : Registry) :
    ((refresh_writes_pre esf c st).1).bitcoin_latest_block_size = st.bitcoin_latest_block_size ∧
    ((refresh_writes_pre esf c st).1).bitcoin_latest_block_txs = st.bitcoin_latest_block_txs ∧
    ((refresh_writes_pre esf c st).1).bitcoin_latest_block_height = st.bitcoin_latest_block_height ∧
    ((refresh_writes_pre esf c st).1).bitcoin_latest_block_weight = st.bitcoin_latest_block_weight ∧
    ((refresh_writes_pre esf c st).1).bitcoin_latest_block_inputs = st.bitcoin_latest_block_inputs ∧
    ((refresh_writes_pre esf c st).1).bitcoin_latest_block_outputs = st.bitcoin_latest_block_outputs ∧
    ((refresh_writes_pre esf c st).1).bitcoin_latest_block_value = st.bitcoin_latest_block_value ∧
    ((refresh_writes_pre esf c st).1).process_time = st.process_time ∧
    ((refresh_writes_pre esf c st).1).exporter_errors = st.exporter_errors := by
  rcases hm : do_smartfees esf SMART_FEES (write_scalars1 c st) with ⟨st', r⟩
  have h1 : (do_smartfees esf SMART_FEES (write_scalars1 c st)).1 = st' := by rw [hm]
  have hf := do_smartfees_frame esf SMART_FEES (write_scalars1 c st)
  rw [h1] at hf
  cases r with
  | error e =>
    simp only [refresh_writes_pre, hm]
    simp [hf, write_scalars1]
  | ok u =>
    simp only [refresh_writes_pre, hm]
    cases hw : c.networkinfo.warnings with
    | none =>
      simp [processBans_frame, hf, write_scalars1]
    | some ws =>
      simp [write_scalars2, write_warnings_frame, processBans_frame, hf, write_scalars1]

/-- The full write phase never touches the process-time counter or the
error counter. -/
theorem refresh_writes_errProj (esf : ℕ → Except Exc SmartFeeResult)
    (c : FetchedCycle) (st : Registry) :
    ((refresh_writes esf c st).1).process_time = st.process_time ∧
    ((refresh_writes esf c st).1).exporter_errors = st.exporter_errors := by
  unfold refresh_writes
  rcases hm : refresh_writes_pre esf c st with ⟨st', r⟩
  have hpre := refresh_writes_pre_frame esf c st
  rw [hm] at hpre
  cases r with
  | error e => exact ⟨hpre.2.2.2.2.2.2.2.1, hpre.2.2.2.2.2.2.2.2⟩
  | ok u =>
    simp only
    have hb := set_block_metrics_counters c.latest_block st'
    exact ⟨hb.1.trans hpre.2.2.2.2.2.2.2.1, hb.2.1.trans hpre.2.2.2.2.2.2.2.2⟩

/-- `refresh_metrics` never touches the process-time counter or the error
counter: those are incremented only by the scheduler loop and the retry
layer. -/
theorem refresh_metrics_counters (node : NodeResponses) (st : Registry) :
    ((refresh_metrics node st).1).process_time = st.process_time ∧
    ((refresh_metrics node st).1).exporter_errors = st.exporter_errors := by
  unfold refresh_metrics
  cases node.uptime with
  | error e => exact ⟨rfl, rfl⟩
  | ok uptime =>
  cases node.getmemoryinfo with
  | error e => exact ⟨rfl, rfl⟩
  | ok meminfo =>
  cases node.getblockchaininfo with
  | error e => exact ⟨rfl, rfl⟩
  | ok blockchaininfo =>
  cases node.getnetworkinfo with
  | error e => exact ⟨rfl, rfl⟩
  | ok networkinfo =>
  cases node.getchaintips with
  | error e => exact ⟨rfl, rfl⟩
  | ok chaintips =>
  cases node.getmempoolinfo with
  | error e => exact ⟨rfl, rfl⟩
  | ok mempool =>
  cases node.getnettotals with
  | error e => exact ⟨rfl, rfl⟩
  | ok nettotals =>
  cases node.getnetworkhashps 120 with
  | error e => exact ⟨rfl, rfl⟩
  | ok hashps_120 =>
  cases node.getnetworkhashps (-1) with
  | error e => exact ⟨rfl, rfl⟩
  | ok hashps_neg1 =>
  cases node.getnetworkhashps 1 with
  | error e => exact ⟨rfl, rfl⟩
  | ok hashps_1 =>
  cases node.listbanned with
  | error e => exact ⟨rfl, rfl⟩
  | ok banned =>
  exact refresh_writes_errProj node.estimatesmartfee _ st

/-! ## The aggregation loop computes sums -/

theorem blockAggLoop_eq (txs : List Tx) :
    ∀ (i o : ℕ) (v : ℚ),
      blockAggLoop txs i o v =
        (i + (txs.map (fun t => t.vin.length)).sum,
         o + (txs.map (fun t => t.vout.length)).sum,
         v + (txs.map (fun t => (t.vout.map TxOut.value).sum)).sum) := by
  induction txs with
  | nil => intro i o v; simp [blockAggLoop]
  | cons tx rest ih =>
    intro i o v
    simp [blockAggLoop, ih, Nat.add_assoc, add_assoc]

/-! ## A node whose foundational calls succeed

`mkNode d` builds the `NodeResponses` of a node that answers every RPC
except possibly `getblock` successfully, from plain data `d`; it is the
vehicle for the claims about otherwise-normal cycles. -/

structure NodeData where
  uptime : ℤ
  meminfo : MemInfo
  blockchaininfo : BlockchainInfo
  networkinfo : NetworkInfo
  chaintips : List Unit
  mempool : MempoolInfo
  nettotals : NetTotals
  block : Except Exc Block
  hashps : ℤ → ℚ
  banned : List Ban
  feerate : ℕ → Option ℚ

def mkNode (d : NodeData) : NodeResponses where
  uptime := .ok d.uptime
  getmemoryinfo := .ok d.meminfo
  getblockchaininfo := .ok d.blockchaininfo
  getnetworkinfo := .ok d.networkinfo
  getchaintips := .ok d.chaintips
  getmempoolinfo := .ok d.mempool
  getnettotals := .ok d.nettotals
  getblock := fun _ => d.block
  getnetworkhashps := fun n => .ok (d.hashps n)
  listbanned := .ok d.banned
  estimatesmartfee := fun n => .ok ⟨d.feerate n⟩

/-- The cycle data fetched from `mkNode d`. -/
def mkCycle (d : NodeData) : FetchedCycle :=
  { uptime := d.uptime, meminfo := d.meminfo, blockchaininfo := d.blockchaininfo,
    networkinfo := d.networkinfo, chaintips := d.chaintips.length,
    mempool := d.mempool, nettotals := d.nettotals,
    latest_block := get_block d.block,
    hashps_120 := d.hashps 120, hashps_neg1 := d.hashps (-1), hashps_1 := d.hashps 1,
    banned := d.banned }

theorem refresh_metrics_mkNode (d : NodeData) (st : Registry) :
    refresh_metrics (mkNode d) st =
      refresh_writes (fun n => .ok ⟨d.feerate n⟩) (mkCycle d) st := rfl

theorem do_smartfee_ok (f : ℕ → Option ℚ) (n : ℕ) (st : Registry) :
    (do_smartfee (fun k => .ok ⟨f k⟩) n st).2 = .ok () := by
  unfold do_smartfee
  cases hf : f n <;> simp [hf]

theorem do_smartfees_ok (f : ℕ → Option ℚ) (l : List ℕ) :
    ∀ st : Registry, (do_smartfees (fun k => .ok ⟨f k⟩) l st).2 = .ok () := by
  induction l with
  | nil => intro st; simp [do_smartfees]
  | cons n rest ih =>
    intro st
    rcases hm : do_smartfee (fun k => .ok ⟨f k⟩) n st with ⟨st', r⟩
    have h2 : r = .ok () := by
      have := do_smartfee_ok f n st
      rw [hm] at this
      exact this
    subst h2
    simp only [do_smartfees, hm]
    exact ih st'

/-- With a node whose `estimatesmartfee` always answers and a present
warnings field, the pre-block write phase succeeds. -/
theorem refresh_writes_pre_ok (f : ℕ → Option ℚ) (c : FetchedCycle) (st : Registry)
    (ws : List String) (hw : c.networkinfo.warnings = some ws) :
    (refresh_writes_pre (fun k => .ok ⟨f k⟩) c st).2 = .ok () := by
  rcases hm : do_smartfees (fun k => .ok ⟨f k⟩) SMART_FEES (write_scalars1 c st) with ⟨st', r⟩
  have h2 : r = .ok () := by
    have := do_smartfees_ok f SMART_FEES (write_scalars1 c st)
    rw [hm] at this
    exact this
  subst h2
  simp only [refresh_writes_pre, hm, hw]

/-- With a node whose `estimatesmartfee` always answers and a present
warnings field, the whole write phase succeeds. -/
theorem refresh_writes_ok (f : ℕ → Option ℚ) (c : FetchedCycle) (st : Registry)
    (ws : List String) (hw : c.networkinfo.warnings = some ws) :
    (refresh_writes (fun k => .ok ⟨f k⟩) c st).2 = .ok () := by
  rcases hm : refresh_writes_pre (fun k => .ok ⟨f k⟩) c st with ⟨st', r⟩
  have h2 : r = .ok () := by
    have := refresh_writes_pre_ok f c st ws hw
    rw [hm] at this
    exact this
  subst h2
  simp only [refresh_writes, hm]

/-! ## Claims -/

/-- The synthetic latest block of the spec: three transactions with
(inputs, outputs, output-values) = (2,1,5.0), (1,2,3.0+1.0), (3,1,10.0). -/
def syntheticBlock : Block :=
  { size := 0, nTx := 3, height := 0, weight := 0,
    tx := [ { vin := [(), ()], vout := [{ value := 5 }] },
            { vin := [()], vout := [{ value := 3 }, { value := 1 }] },
            { vin := [(), (), ()], vout := [{ value := 10 }] } ] }

/-- C1: for every latest block successfully retrieved, the three
block-aggregate instruments are set to the sums over all transactions of
the block — total input count = sum of `len(vin)`, total output count =
sum of `len(vout)`, total output value = sum of every output's `value` —
and on the spec's synthetic three-transaction block the published values
are inputs = 6, outputs = 4, value = 19. -/
theorem claim_C1 :
    (∀ (b : Block) (st : Registry),
      (set_block_metrics (some b) st).bitcoin_latest_block_inputs
          = some (((b.tx.map (fun t => t.vin.length)).sum : ℕ) : ℚ) ∧
      (set_block_metrics (some b) st).bitcoin_latest_block_outputs
          = some (((b.tx.map (fun t => t.vout.length)).sum : ℕ) : ℚ) ∧
      (set_block_metrics (some b) st).bitcoin_latest_block_value
          = some ((b.tx.map (fun t => (t.vout.map TxOut.value).sum)).sum)) ∧
    ((set_block_metrics (some syntheticBlock) Registry.initial).bitcoin_latest_block_inputs
        = some 6 ∧
     (set_block_metrics (some syntheticBlock) Registry.initial).bitcoin_latest_block_outputs
        = some 4 ∧
     (set_block_metrics (some syntheticBlock) Registry.initial).bitcoin_latest_block_value
        = some 19) := by
  constructor
  · intro b st
    simp [set_block_metrics, blockAggLoop_eq]
  · refine ⟨?_, ?_, ?_⟩ <;> norm_num [set_block_metrics, syntheticBlock, blockAggLoop]

/-- C2: through the retrying caller, a first failure of a designated
retryable kind (`InWarmupError` or `ConnectionRefusedError`, as
`error_evaluator` whitelists them) leads to at least a second attempt
within the 30-second budget; the inter-attempt backoff delay is strictly
increasing; and a failure of any non-retryable kind propagates after
exactly one attempt. -/
theorem claim_C2 :
    (∀ n : ℕ, backoffDelay n < backoffDelay (n + 1)) ∧
    (∀ (α : Type) (f : ℕ → Attempt α) (e : Exc),
      f 0 = .raise e → error_evaluator e = true →
      ∃ r : RetryOutcome α, retryCall f 9 = some r ∧ 2 ≤ r.attempts) ∧
    (∀ (α : Type) (f : ℕ → Attempt α) (e : Exc),
      f 0 = .raise e → error_evaluator e = false →
      retryCall f 9 = some (.raised e 1)) := by
  refine ⟨backoffDelay_strictMono, ?_, ?_⟩
  · intro α f e hf he
    have hstep : retryCall f 9 = retryAux f TIMEOUT 1 (0 + backoffDelay 0) 8 := by
      simp only [retryCall, retryAux, hf, he]
      norm_num [TIMEOUT, backoffDelay]
    have hsome : (retryAux f TIMEOUT 1 (0 + backoffDelay 0) 8).isSome := by
      apply retry_budget_total f 8 1 (0 + backoffDelay 0)
      · norm_num [backoffDelay]
      · norm_num
      · norm_num
    rcases Option.isSome_iff_exists.mp hsome with ⟨r, hr⟩
    refine ⟨r, hstep.trans hr, ?_⟩
    exact retryAux_attempts_ge f TIMEOUT 8 1 (0 + backoffDelay 0) r hr
  · intro α f e hf he
    simp only [retryCall, retryAux, hf, he]
    simp

/-- Witness for C2 at concrete inputs: a call that keeps raising
`InWarmupError` is attempted at least twice, and a call that raises
`JSONDecodeError` first is done after exactly one attempt. -/
theorem claim_C2_witness :
    (∃ r : RetryOutcome Unit,
        retryCall (fun _ => .raise .inWarmupError) 9 = some r ∧ 2 ≤ r.attempts) ∧
    retryCall (α := Unit) (fun _ => .raise .jsonDecodeError) 9
        = some (.raised .jsonDecodeError 1) :=
  ⟨claim_C2.2.1 Unit (fun _ => .raise .inWarmupError) .inWarmupError rfl rfl,
   claim_C2.2.2 Unit (fun _ => .raise .jsonDecodeError) .jsonDecodeError rfl rfl⟩

/-- A node whose every call succeeds with trivial data. -/
def sampleData : NodeData where
  uptime := 0
  meminfo := { used := 0, free := 0, total := 0, locked := 0, chunks_used := 0, chunks_free := 0 }
  blockchaininfo := { blocks := 0, difficulty := 0, size_on_disk := 0, bestblockhash := "00" }
  networkinfo := { connections := 0, version := 0, protocolversion := 0, warnings := some [] }
  chaintips := []
  mempool := { bytes := 0, size := 0, usage := 0 }
  nettotals := { totalbytesrecv := 0, totalbytessent := 0 }
  block := .ok { size := 0, nTx := 0, height := 0, weight := 0, tx := [] }
  hashps := fun _ => 0
  banned := []
  feerate := fun _ => none

/-- A node whose first RPC of the cycle exhausts the retry budget. -/
def nodeUptimeRetryError : NodeResponses :=
  { mkNode sampleData with uptime := .error .retryError }

/-- A node whose first RPC of the cycle yields a non-JSON response. -/
def nodeUptimeJsonError : NodeResponses :=
  { mkNode sampleData with uptime := .error .jsonDecodeError }

/-- C3: a `RetryError` (retry budget exhausted) raised during a collection
cycle never terminates the process: the scheduler loop catches it, counts
it under its exception name, still increments the cycle-time counter by the
cycle's duration, and proceeds to the next scheduled cycle. -/
theorem claim_C3 (node : NodeResponses) (st : Registry) (duration : ℚ)
    (h : (refresh_metrics node st).2 = .error .retryError) :
    (main_loop_body node st duration).2 = .nextCycle ∧
    ((main_loop_body node st duration).1).process_time = st.process_time + duration ∧
    assocGet ((main_loop_body node st duration).1).exporter_errors
        (exceptionName .retryError)
      = some ((assocGet st.exporter_errors (exceptionName .retryError)).getD 0 + 1) := by
  rcases hm : refresh_metrics node st with ⟨st', r⟩
  have hc := refresh_metrics_counters node st
  rw [hm] at hc h
  simp only at h hc
  subst h
  simp only [main_loop_body]
  rw [hm]
  refine ⟨rfl, ?_, ?_⟩
  · simp [exception_count, hc.1]
  · simp [exception_count, assocGet_assocSet_same, hc.2]

/-- Witness for C3 at a concrete input: a cycle whose `uptime` call ends in
a `RetryError` continues to the next cycle. -/
theorem claim_C3_witness :
    (main_loop_body nodeUptimeRetryError Registry.initial 7).2 = .nextCycle :=
  (claim_C3 nodeUptimeRetryError Registry.initial 7 rfl).1

/-- When the cycle's latest block is `None`, the whole write phase leaves
the seven block-derived gauges exactly as they were. -/
theorem refresh_writes_none_block (esf : ℕ → Except Exc SmartFeeResult) (c : FetchedCycle)
    (st : Registry) (hlb : c.latest_block = none) :
    ((refresh_writes esf c st).1).bitcoin_latest_block_size = st.bitcoin_latest_block_size ∧
    ((refresh_writes esf c st).1).bitcoin_latest_block_txs = st.bitcoin_latest_block_txs ∧
    ((refresh_writes esf c st).1).bitcoin_latest_block_height = st.bitcoin_latest_block_height ∧
    ((refresh_writes esf c st).1).bitcoin_latest_block_weight = st.bitcoin_latest_block_weight ∧
    ((refresh_writes esf c st).1).bitcoin_latest_block_inputs = st.bitcoin_latest_block_inputs ∧
    ((refresh_writes esf c st).1).bitcoin_latest_block_outputs = st.bitcoin_latest_block_outputs ∧
    ((refresh_writes esf c st).1).bitcoin_latest_block_value = st.bitcoin_latest_block_value := by
  rcases hp : refresh_writes_pre esf c st with ⟨st', r⟩
  have hf := refresh_writes_pre_frame esf c st
  rw [hp] at hf
  simp only at hf
  cases r with
  | error e =>
    simp only [refresh_writes, hp]
    exact ⟨hf.1, hf.2.1, hf.2.2.1, hf.2.2.2.1, hf.2.2.2.2.1, hf.2.2.2.2.2.1,
      hf.2.2.2.2.2.2.1⟩
  | ok u =>
    simp only [refresh_writes, hp, hlb, set_block_metrics]
    exact ⟨hf.1, hf.2.1, hf.2.2.1, hf.2.2.2.1, hf.2.2.2.2.1, hf.2.2.2.2.2.1,
      hf.2.2.2.2.2.2.1⟩

/-- C9 counterexample: a cycle that fails partway with a non-JSON response
(`uptime` returns garbage) exits before `PROCESS_TIME.inc(duration)` runs,
so the cycle-time counter is not incremented by the cycle's duration. -/
theorem claim_C9_counterexample :
    ((main_loop_body nodeUptimeJsonError Registry.initial 5).1).process_time
      ≠ Registry.initial.process_time + 5 := by
  have h : ((main_loop_body nodeUptimeJsonError Registry.initial 5).1).process_time = 0 := rfl
  rw [h]
  norm_num [Registry.initial]

/-- C9 (amended): for every cycle that the scheduler survives — the refresh
returns normally or raises the caught `RetryError` — the cumulative
process-time counter is incremented exactly once by the measured duration;
a cycle aborted by a protocol failure (or an unexpected exception) ends the
process before the increment. -/
theorem claim_C9 (node : NodeResponses) (st : Registry) (duration : ℚ)
    (h : (refresh_metrics node st).2 = .ok () ∨
         (refresh_metrics node st).2 = .error .retryError) :
    ((main_loop_body node st duration).1).process_time = st.process_time + duration := by
  rcases hm : refresh_metrics node st with ⟨st', r⟩
  have hc := refresh_metrics_counters node st
  rw [hm] at hc h
  simp only at h hc
  rcases h with h | h
  · subst h
    simp only [main_loop_body]
    rw [hm]
    simp [hc.1]
  · subst h
    simp only [main_loop_body]
    rw [hm]
    simp [exception_count, hc.1]

/-- Witness for C9 at a concrete input: a fully successful cycle of
duration 3 adds 3 to the process-time counter. -/
theorem claim_C9_witness :
    ((main_loop_body (mkNode sampleData) Registry.initial 3).1).process_time
      = Registry.initial.process_time + 3 :=
  claim_C9 (mkNode sampleData) Registry.initial 3 (Or.inl rfl)

/-- A node whose `getblock` call returns a non-JSON response while every
other call succeeds. -/
def nodeBadBlockJson : NodeResponses :=
  mkNode { sampleData with block := .error .jsonDecodeError }

/-- C4 counterexample: a `JSONDecodeError` raised during the `getblock`
remote call of a cycle does not terminate the process — `get_block`
swallows it and the scheduler proceeds to the next cycle. -/
theorem claim_C4_counterexample :
    (main_loop_body nodeBadBlockJson Registry.initial 1).2 = .nextCycle := rfl

/-- C4 (amended): a `JSONDecodeError` (protocol failure) that escapes
`refresh_metrics` — i.e. one raised during any remote call other than the
latest-block lookup — terminates the process with exit status 1; raised
during the latest-block lookup it is swallowed by `get_block` and the
scheduler continues. -/
theorem claim_C4 :
    (∀ (node : NodeResponses) (st : Registry) (duration : ℚ),
      (refresh_metrics node st).2 = .error .jsonDecodeError →
      (main_loop_body node st duration).2 = .exitCode 1) ∧
    (∀ (d : NodeData) (st : Registry) (duration : ℚ) (ws : List String),
      d.networkinfo.warnings = some ws →
      (main_loop_body (mkNode { d with block := .error .jsonDecodeError }) st duration).2
        = .nextCycle) := by
  constructor
  · intro node st duration h
    rcases hm : refresh_metrics node st with ⟨st', r⟩
    rw [hm] at h
    simp only at h
    subst h
    simp only [main_loop_body]
    rw [hm]
  · intro d st duration ws hw
    have hok : (refresh_metrics (mkNode { d with block := .error .jsonDecodeError }) st).2
        = .ok () := by
      rw [refresh_metrics_mkNode]
      exact refresh_writes_ok _ _ st ws hw
    rcases hm : refresh_metrics (mkNode { d with block := .error .jsonDecodeError }) st
      with ⟨st', r⟩
    rw [hm] at hok
    simp only at hok
    subst hok
    simp only [main_loop_body]
    rw [hm]

/-- Witness for C4 at concrete inputs: a non-JSON `uptime` response exits
with status 1; a non-JSON `getblock` response continues. -/
theorem claim_C4_witness :
    (main_loop_body nodeUptimeJsonError Registry.initial 2).2 = .exitCode 1 ∧
    (main_loop_body (mkNode { sampleData with block := .error .jsonDecodeError })
        Registry.initial 2).2 = .nextCycle :=
  ⟨claim_C4.1 nodeUptimeJsonError Registry.initial 2 rfl,
   claim_C4.2 sampleData Registry.initial 2 [] rfl⟩

/-- C10: `get_block` swallows every exception kind and returns `None`, so
no failure raised while retrieving the latest block — a protocol failure
included — propagates out of the lookup or terminates the process: the
cycle completes, the scheduler continues, and the block-derived gauges are
skipped (left at their prior values) for that cycle. -/
theorem claim_C10 (d : NodeData) (e : Exc) (st : Registry) (duration : ℚ)
    (ws : List String) (hw : d.networkinfo.warnings = some ws) :
    get_block (Except.error e) = none ∧
    (refresh_metrics (mkNode { d with block := .error e }) st).2 = .ok () ∧
    (main_loop_body (mkNode { d with block := .error e }) st duration).2 = .nextCycle ∧
    ((refresh_metrics (mkNode { d with block := .error e }) st).1).bitcoin_latest_block_size
        = st.bitcoin_latest_block_size ∧
    ((refresh_metrics (mkNode { d with block := .error e }) st).1).bitcoin_latest_block_txs
        = st.bitcoin_latest_block_txs ∧
    ((refresh_metrics (mkNode { d with block := .error e }) st).1).bitcoin_latest_block_height
        = st.bitcoin_latest_block_height ∧
    ((refresh_metrics (mkNode { d with block := .error e }) st).1).bitcoin_latest_block_weight
        = st.bitcoin_latest_block_weight ∧
    ((refresh_metrics (mkNode { d with block := .error e }) st).1).bitcoin_latest_block_inputs
        = st.bitcoin_latest_block_inputs ∧
    ((refresh_metrics (mkNode { d with block := .error e }) st).1).bitcoin_latest_block_outputs
        = st.bitcoin_latest_block_outputs ∧
    ((refresh_metrics (mkNode { d with block := .error e }) st).1).bitcoin_latest_block_value
        = st.bitcoin_latest_block_value := by
  have hok : (refresh_metrics (mkNode { d with block := .error e }) st).2 = .ok () := by
    rw [refresh_metrics_mkNode]
    exact refresh_writes_ok _ _ st ws hw
  have hnext : (main_loop_body (mkNode { d with block := .error e }) st duration).2
      = .nextCycle := by
    rcases hm : refresh_metrics (mkNode { d with block := .error e }) st with ⟨st', r⟩
    rw [hm] at hok
    simp only at hok
    subst hok
    simp only [main_loop_body]
    rw [hm]
  have hframe := refresh_writes_none_block (fun n => .ok ⟨d.feerate n⟩)
    (mkCycle { d with block := .error e }) st rfl
  rw [refresh_metrics_mkNode]
  exact ⟨rfl, by rw [← refresh_metrics_mkNode]; exact hok, hnext, hframe.1, hframe.2.1,
    hframe.2.2.1, hframe.2.2.2.1, hframe.2.2.2.2.1, hframe.2.2.2.2.2.1, hframe.2.2.2.2.2.2⟩

/-- Witness for C10 at a concrete input: an arbitrary exception in the
latest-block lookup still yields a completed cycle. -/
theorem claim_C10_witness :
    (main_loop_body (mkNode { sampleData with block := .error (.otherError "boom") })
        Registry.initial 1).2 = .nextCycle :=
  (claim_C10 sampleData (.otherError "boom") Registry.initial 1 [] rfl).2.2.1

/-- Replacing the cycle's latest block by `None` changes exactly the seven
block-derived gauges of the result — they keep their prior values — and
nothing else in the write phase. -/
theorem refresh_writes_block_vs_none (esf : ℕ → Except Exc SmartFeeResult)
    (c : FetchedCycle) (b : Block) (st : Registry)
    (hpok : (refresh_writes_pre esf c st).2 = .ok ()) :
    (refresh_writes esf { c with latest_block := none } st).1 =
      { (refresh_writes esf { c with latest_block := some b } st).1 with
          bitcoin_latest_block_size := st.bitcoin_latest_block_size,
          bitcoin_latest_block_txs := st.bitcoin_latest_block_txs,
          bitcoin_latest_block_height := st.bitcoin_latest_block_height,
          bitcoin_latest_block_weight := st.bitcoin_latest_block_weight,
          bitcoin_latest_block_inputs := st.bitcoin_latest_block_inputs,
          bitcoin_latest_block_outputs := st.bitcoin_latest_block_outputs,
          bitcoin_latest_block_value := st.bitcoin_latest_block_value } := by
  have hirr1 : refresh_writes_pre esf { c with latest_block := none } st
      = refresh_writes_pre esf c st := rfl
  have hirr2 : refresh_writes_pre esf { c with latest_block := some b } st
      = refresh_writes_pre esf c st := rfl
  rcases hp : refresh_writes_pre esf c st with ⟨st', r⟩
  rw [hp] at hpok
  simp only at hpok
  subst hpok
  have hf := refresh_writes_pre_frame esf c st
  rw [hp] at hf
  simp only at hf
  simp only [refresh_writes, hirr1, hirr2, hp]
  simp only [set_block_metrics]
  apply Registry.ext <;>
    simp [hf.1, hf.2.1, hf.2.2.1, hf.2.2.2.1, hf.2.2.2.2.1, hf.2.2.2.2.2.1,
      hf.2.2.2.2.2.2.1]

/-- C6: in a cycle whose latest-block lookup fails (while the rest of the
cycle is normal), the four block instruments and the three block-aggregate
instruments are not written — the resulting registry equals the registry of
the same cycle with a successful lookup, except that those seven
instruments keep their prior values — and the cycle still completes. -/
theorem claim_C6 (d : NodeData) (b : Block) (e : Exc) (st : Registry) (ws : List String)
    (hw : d.networkinfo.warnings = some ws) :
    (refresh_metrics (mkNode { d with block := .error e }) st).2 = .ok () ∧
    (refresh_metrics (mkNode { d with block := .error e }) st).1 =
      { (refresh_metrics (mkNode { d with block := .ok b }) st).1 with
          bitcoin_latest_block_size := st.bitcoin_latest_block_size,
          bitcoin_latest_block_txs := st.bitcoin_latest_block_txs,
          bitcoin_latest_block_height := st.bitcoin_latest_block_height,
          bitcoin_latest_block_weight := st.bitcoin_latest_block_weight,
          bitcoin_latest_block_inputs := st.bitcoin_latest_block_inputs,
          bitcoin_latest_block_outputs := st.bitcoin_latest_block_outputs,
          bitcoin_latest_block_value := st.bitcoin_latest_block_value } := by
  constructor
  · rw [refresh_metrics_mkNode]
    exact refresh_writes_ok _ _ st ws hw
  · have hpok : (refresh_writes_pre (fun n => .ok ⟨d.feerate n⟩)
        (mkCycle { d with block := .ok b }) st).2 = .ok () :=
      refresh_writes_pre_ok d.feerate (mkCycle { d with block := .ok b }) st ws hw
    rw [refresh_metrics_mkNode, refresh_metrics_mkNode]
    exact refresh_writes_block_vs_none (fun n => .ok ⟨d.feerate n⟩)
      (mkCycle { d with block := .ok b }) b st hpok

/-- Witness for C6 at a concrete input: with trivial cycle data, the cycle
with a failed lookup still completes. -/
theorem claim_C6_witness :
    (refresh_metrics (mkNode { sampleData with block := .error .retryError })
        Registry.initial).2 = .ok () :=
  (claim_C6 sampleData { size := 1, nTx := 0, height := 2, weight := 3, tx := [] }
    .retryError Registry.initial [] rfl).1

/-- In the pre-block write phase with an always-answering `estimatesmartfee`,
the warnings counter moves by exactly 1 when the warnings field is a
non-empty value, by 0 when it is empty, and by 0 (with a `KeyError`) when
it is absent. -/
theorem refresh_writes_pre_warnings (f : ℕ → Option ℚ) (c : FetchedCycle) (st : Registry) :
    (c.networkinfo.warnings = none →
      ((refresh_writes_pre (fun k => .ok ⟨f k⟩) c st).1).bitcoin_warnings
          = st.bitcoin_warnings ∧
      (refresh_writes_pre (fun k => .ok ⟨f k⟩) c st).2 = .error .keyError) ∧
    (∀ ws : List String, c.networkinfo.warnings = some ws →
      ((refresh_writes_pre (fun k => .ok ⟨f k⟩) c st).1).bitcoin_warnings
          = st.bitcoin_warnings + (if ws = [] then 0 else 1)) := by
  rcases hm : do_smartfees (fun k => .ok ⟨f k⟩) SMART_FEES (write_scalars1 c st)
    with ⟨st', r⟩
  have hok : r = .ok () := by
    have := do_smartfees_ok f SMART_FEES (write_scalars1 c st)
    rw [hm] at this
    exact this
  subst hok
  have h1 : (do_smartfees (fun k => .ok ⟨f k⟩) SMART_FEES (write_scalars1 c st)).1 = st' := by
    rw [hm]
  have hfm := do_smartfees_frame (fun k => .ok ⟨f k⟩) SMART_FEES (write_scalars1 c st)
  rw [h1] at hfm
  have hwarn : st'.bitcoin_warnings = st.bitcoin_warnings := by
    have := hfm.2.2.2.2.2.2.2.2.2.1
    simpa [write_scalars1] using this
  constructor
  · intro hw
    simp only [refresh_writes_pre, hm, hw]
    refine ⟨?_, trivial⟩
    have hpb := processBans_frame c.banned st'
    rw [hpb.2.2.2.2.2.2.2.2.2]
    exact hwarn
  · intro ws hw
    simp only [refresh_writes_pre, hm, hw]
    have hpb := processBans_frame c.banned st'
    simp [write_scalars2, write_warnings_val, hpb.2.2.2.2.2.2.2.2.2, hwarn]

/-- C7: in a cycle that is otherwise normal, the warnings counter increases
by exactly 1 when the network-info warnings field is a non-empty value, by
0 when it is empty (regardless of how many warning strings the field
holds), and by 0 when the field is absent (the access then raises
`KeyError`). -/
theorem claim_C7 (d : NodeData) (st : Registry) :
    (∀ ws : List String, d.networkinfo.warnings = some ws →
      ((refresh_metrics (mkNode d) st).1).bitcoin_warnings
        = st.bitcoin_warnings + (if ws = [] then 0 else 1)) ∧
    (d.networkinfo.warnings = none →
      ((refresh_metrics (mkNode d) st).1).bitcoin_warnings = st.bitcoin_warnings ∧
      (refresh_metrics (mkNode d) st).2 = .error .keyError) := by
  have hpre := refresh_writes_pre_warnings d.feerate (mkCycle d) st
  rcases hp : refresh_writes_pre (fun k => .ok ⟨d.feerate k⟩) (mkCycle d) st with ⟨st', r⟩
  constructor
  · intro ws hw
    have hw' : (mkCycle d).networkinfo.warnings = some ws := hw
    have hwv := hpre.2 ws hw'
    rw [hp] at hwv
    simp only at hwv
    have hpok : r = .ok () := by
      have := refresh_writes_pre_ok d.feerate (mkCycle d) st ws hw'
      rw [hp] at this
      exact this
    subst hpok
    rw [refresh_metrics_mkNode]
    simp only [refresh_writes, hp]
    rw [(set_block_metrics_counters _ st').2.2]
    exact hwv
  · intro hw
    have hw' : (mkCycle d).networkinfo.warnings = none := hw
    have h1 := hpre.1 hw'
    rw [hp] at h1
    simp only at h1
    obtain ⟨hwv, hr⟩ := h1
    subst hr
    rw [refresh_metrics_mkNode]
    simp only [refresh_writes, hp]
    exact ⟨hwv, trivial⟩

/-- The network info of a node reporting two packed warning strings. -/
def twoWarningsInfo : NetworkInfo where
  connections := 0
  version := 0
  protocolversion := 0
  warnings := some ["warning one", "warning two"]

/-- Witness for C7 at concrete inputs: a cycle with two warning strings
packed in the field increments the counter by exactly 1. -/
theorem claim_C7_witness :
    ((refresh_metrics (mkNode { sampleData with networkinfo := twoWarningsInfo })
        Registry.initial).1).bitcoin_warnings
      = Registry.initial.bitcoin_warnings + 1 := by
  have h := (claim_C7 { sampleData with networkinfo := twoWarningsInfo }
    Registry.initial).1 ["warning one", "warning two"] rfl
  simpa using h

/-! ## Smart-fee gauge creation (C5) -/

/-- Well-formedness of the smart-fee gauge dictionary: distinct block
counts map to distinct gauges, and every created gauge identity predates
`smartfee_next`.  It holds at process start and is maintained by
`smartfee_gauge`. -/
def SmartfeeWF (st : Registry) : Prop :=
  st.smartfee_dict.Pairwise (fun p q => p.1 ≠ q.1 ∧ p.2 ≠ q.2) ∧
  ∀ p ∈ st.smartfee_dict, p.2 < st.smartfee_next

theorem pairwise_mem_val_ne {l : List (ℕ × ℕ)}
    (hp : l.Pairwise (fun p q => p.1 ≠ q.1 ∧ p.2 ≠ q.2))
    {p q : ℕ × ℕ} (hpm : p ∈ l) (hqm : q ∈ l) (hne : p.1 ≠ q.1) : p.2 ≠ q.2 := by
  induction l with
  | nil => simp at hpm
  | cons a rest ih =>
    rw [List.pairwise_cons] at hp
    rcases List.mem_cons.mp hpm with e1 | m1 <;> rcases List.mem_cons.mp hqm with e2 | m2
    · exact absurd (e1 ▸ e2 ▸ rfl) hne
    · subst e1
      exact (hp.1 q m2).2
    · subst e2
      exact fun h => (hp.1 p m1).2 h.symm
    · exact ih hp.2 m1 m2

/-- C5: for every confirmation-target block count, the fee-rate gauge is
created at most once — a second lookup of the same count returns the
previously created instrument and leaves the dictionary unchanged — and two
different target counts yield two distinct gauge instruments that are
independently settable (setting one gauge's value leaves the other's value
untouched). -/
theorem claim_C5 (st : Registry) (n m : ℕ) (hwf : SmartfeeWF st) (hnm : n ≠ m) :
    smartfee_gauge (smartfee_gauge st n).2 n = smartfee_gauge st n ∧
    (smartfee_gauge st n).1 ≠ (smartfee_gauge (smartfee_gauge st n).2 m).1 ∧
    ∀ v : ℚ,
      assocGet (assocSet ((smartfee_gauge (smartfee_gauge st n).2 m).2).smartfee_values
          (smartfee_gauge st n).1 v)
        (smartfee_gauge (smartfee_gauge st n).2 m).1
        = assocGet ((smartfee_gauge (smartfee_gauge st n).2 m).2).smartfee_values
            (smartfee_gauge (smartfee_gauge st n).2 m).1 ∧
      assocGet (assocSet ((smartfee_gauge (smartfee_gauge st n).2 m).2).smartfee_values
          (smartfee_gauge st n).1 v)
        (smartfee_gauge st n).1 = some v := by
  obtain ⟨hpair, hbound⟩ := hwf
  have hmain : smartfee_gauge (smartfee_gauge st n).2 n = smartfee_gauge st n ∧
      (smartfee_gauge st n).1 ≠ (smartfee_gauge (smartfee_gauge st n).2 m).1 := by
    rcases hG1 : assocGet st.smartfee_dict n with _ | g1
    · constructor
      · simp [smartfee_gauge, hG1, assocGet_assocSet_same]
      · rcases hG2 : assocGet (assocSet st.smartfee_dict n st.smartfee_next) m with _ | g2
        · simp [smartfee_gauge, hG1, hG2]
        · have hm2 : assocGet st.smartfee_dict m = some g2 := by
            rw [← assocGet_assocSet_ne st.smartfee_dict n m st.smartfee_next hnm.symm]
            exact hG2
          have hlt := hbound _ (assocGet_mem _ _ _ hm2)
          simp only [smartfee_gauge, hG1, hG2]
          simp only at hlt
          omega
    · constructor
      · simp [smartfee_gauge, hG1]
      · rcases hG2 : assocGet st.smartfee_dict m with _ | g2
        · have hlt := hbound _ (assocGet_mem _ _ _ hG1)
          simp only [smartfee_gauge, hG1, hG2]
          simp only at hlt
          omega
        · simp only [smartfee_gauge, hG1, hG2]
          exact pairwise_mem_val_ne hpair (assocGet_mem _ _ _ hG1)
            (assocGet_mem _ _ _ hG2) hnm
  refine ⟨hmain.1, hmain.2, fun v => ⟨?_, ?_⟩⟩
  · exact assocGet_assocSet_ne _ _ _ v hmain.2.symm
  · exact assocGet_assocSet_same _ _ v

/-- Witness for C5 at concrete inputs: counts 2 and 3 on the initial
registry give distinct gauges. -/
theorem claim_C5_witness :
    (smartfee_gauge Registry.initial 2).1
      ≠ (smartfee_gauge (smartfee_gauge Registry.initial 2).2 3).1 :=
  (claim_C5 Registry.initial 2 3 (by simp [SmartfeeWF, Registry.initial]) (by norm_num)).2.1

/-! ## Banned-peer labeled families (C8) -/

theorem processBans_not_mem (bans : List Ban) :
    ∀ (st : Registry) (key : String × String),
      key ∉ bans.map (fun b => (b.address, b.ban_reason)) →
      assocGet (processBans bans st).bitcoin_ban_created key
          = assocGet st.bitcoin_ban_created key ∧
      assocGet (processBans bans st).bitcoin_banned_until key
          = assocGet st.bitcoin_banned_until key := by
  induction bans with
  | nil => intro st key _; simp [processBans]
  | cons ban rest ih =>
    intro st key h
    simp only [List.map_cons, List.mem_cons, not_or] at h
    obtain ⟨hne, hnm⟩ := h
    simp only [processBans]
    have h2 := ih
      { st with
          bitcoin_ban_created :=
            assocSet st.bitcoin_ban_created (ban.address, ban.ban_reason) ban.ban_created,
          bitcoin_banned_until :=
            assocSet st.bitcoin_banned_until (ban.address, ban.ban_reason) ban.banned_until }
      key hnm
    rw [h2.1, h2.2]
    simp only
    exact ⟨assocGet_assocSet_ne _ _ _ _ hne, assocGet_assocSet_ne _ _ _ _ hne⟩

/-- The spec's scenario: two banned entries with identical address but
different reasons. -/
def sampleBan1 : Ban :=
  { address := "203.0.113.5", ban_reason := "noban", ban_created := 10, banned_until := 20 }

def sampleBan2 : Ban :=
  { address := "203.0.113.5", ban_reason := "manually added", ban_created := 30,
    banned_until := 40 }

/-- C8: every entry of the banned-peer list writes exactly its two
labeled-family gauges (ban-creation and ban-expiry), keyed by the tuple
(address, reason); label tuples not written this cycle — including entries
from previous cycles — are never pruned; and two bans with the same address
but different reasons occupy two distinct, independently valued entries. -/
theorem claim_C8 (bans : List Ban) (st : Registry)
    (hnodup : (bans.map (fun b => (b.address, b.ban_reason))).Nodup) :
    (∀ b ∈ bans,
      assocGet (processBans bans st).bitcoin_ban_created (b.address, b.ban_reason)
          = some b.ban_created ∧
      assocGet (processBans bans st).bitcoin_banned_until (b.address, b.ban_reason)
          = some b.banned_until) ∧
    (∀ key, key ∉ bans.map (fun b => (b.address, b.ban_reason)) →
      assocGet (processBans bans st).bitcoin_ban_created key
          = assocGet st.bitcoin_ban_created key ∧
      assocGet (processBans bans st).bitcoin_banned_until key
          = assocGet st.bitcoin_banned_until key) ∧
    ((sampleBan1.address, sampleBan1.ban_reason)
        ≠ (sampleBan2.address, sampleBan2.ban_reason) ∧
     assocGet (processBans [sampleBan1, sampleBan2] Registry.initial).bitcoin_ban_created
        (sampleBan1.address, sampleBan1.ban_reason) = some sampleBan1.ban_created ∧
     assocGet (processBans [sampleBan1, sampleBan2] Registry.initial).bitcoin_ban_created
        (sampleBan2.address, sampleBan2.ban_reason) = some sampleBan2.ban_created ∧
     assocGet (processBans [sampleBan1, sampleBan2] Registry.initial).bitcoin_banned_until
        (sampleBan1.address, sampleBan1.ban_reason) = some sampleBan1.banned_until ∧
     assocGet (processBans [sampleBan1, sampleBan2] Registry.initial).bitcoin_banned_until
        (sampleBan2.address, sampleBan2.ban_reason) = some sampleBan2.banned_until) := by
  refine ⟨?_, fun key h => processBans_not_mem bans st key h, by decide, ?_, ?_, ?_, ?_⟩
  · induction bans generalizing st with
    | nil => intro b hb; simp at hb
    | cons ban rest ih =>
      intro b hb
      simp only [List.map_cons, List.nodup_cons] at hnodup
      obtain ⟨hhead, htail⟩ := hnodup
      simp only [processBans]
      rcases List.mem_cons.mp hb with e | hbm
      · subst e
        have h2 := processBans_not_mem rest
          { st with
              bitcoin_ban_created :=
                assocSet st.bitcoin_ban_created (b.address, b.ban_reason) b.ban_created,
              bitcoin_banned_until :=
                assocSet st.bitcoin_banned_until (b.address, b.ban_reason) b.banned_until }
          (b.address, b.ban_reason) hhead
        rw [h2.1, h2.2]
        simp only
        exact ⟨assocGet_assocSet_same _ _ _, assocGet_assocSet_same _ _ _⟩
      · exact ih _ htail b hbm
  all_goals decide

/-- Witness for C8 at concrete inputs: the second of two same-address,
different-reason bans gets its own creation-time entry. -/
theorem claim_C8_witness :
    assocGet (processBans [sampleBan1, sampleBan2] Registry.initial).bitcoin_ban_created
        (sampleBan2.address, sampleBan2.ban_reason) = some sampleBan2.ban_created :=
  ((claim_C8 [sampleBan1, sampleBan2] Registry.initial (by decide)).1 sampleBan2
    (by simp)).1

end BitcoindMonitor
